import Mathlib

/-!
Verification of the Corporate Expense Tracker's access-scope, workflow and
aggregation logic. The definitions below are a shallow embedding of the
repository's code:

* `src/src/lib/expenseService.ts`  (client-side role filtering and stats)
* `src/src/lib/roleUtils.ts`       (role permissions and hierarchy)
* `src/server/routes/expenses.js`  (Express route handlers)
* `src/server/models/Expense.js`   (Mongoose pre-save status hook)
* `src/server/controllers/expenseController.js` (unmounted controller variant)

Machine-level conventions: monetary amounts are embedded as `ℚ` (the JS code
uses `number`; no claim here depends on float rounding), Mongo ObjectIds and
all other identifiers as `String`, timestamps (`new Date()`) as `Nat`.
-/

namespace ExpenseTracker

/-- Roles, from `roleUtils.ts` (`'admin' | 'manager' | 'employee'`). -/
inductive Role
  | admin
  | manager
  | employee
deriving DecidableEq, Fintype

/-- Client-side expense status, from the `Expense` interface in
`src/lib/supabase.ts`: `'draft' | 'pending' | 'approved' | 'rejected'`. -/
inductive CStatus
  | draft
  | pending
  | approved
  | rejected
deriving DecidableEq, Fintype

/-- Server-side status vocabulary. The route file's `STATUS_ALLOWED` list is
`['draft','pending','approved','rejected','paid']`; the model file
`server/models/Expense.js` additionally uses `'submitted'` in its enum and in
its pre-save hook. The embedding carries all six values so the mismatch
between the two files stays visible. -/
inductive SStatus
  | draft
  | pending
  | submitted
  | approved
  | rejected
  | paid
deriving DecidableEq, Fintype

/-- Client-side user record (the `User` interface in `src/lib/supabase.ts`). -/
structure CUser where
  id : String
  email : String
  name : String
  role : Role
  department : String
deriving DecidableEq

/-- Client-side expense record (the `Expense` interface in
`src/lib/supabase.ts`). -/
structure CExpense where
  id : String
  user_id : String
  title : String
  amount : ℚ
  category : String
  status : CStatus
  user_department : String
deriving DecidableEq

/-- `ExpenseService.getExpensesByRole` from `src/lib/expenseService.ts`:
admin sees everything; a manager sees expenses whose `user_department`
matches their department OR whose `user_id` is their own id; an employee
sees only their own expenses. -/
def getExpensesByRole (currentUser : CUser) (allExpenses : List CExpense) : List CExpense :=
  match currentUser.role with
  | Role.admin => allExpenses
  | Role.manager =>
      allExpenses.filter fun expense =>
        expense.user_department == currentUser.department ||
        expense.user_id == currentUser.id
  | Role.employee =>
      allExpenses.filter fun expense => expense.user_id == currentUser.id

/-- `ExpenseService.getTeamMembersByRole` from `src/lib/expenseService.ts`. -/
def getTeamMembersByRole (currentUser : CUser) (allUsers : List CUser) : List CUser :=
  match currentUser.role with
  | Role.admin => allUsers
  | Role.manager =>
      allUsers.filter fun user =>
        user.department == currentUser.department || user.id == currentUser.id
  | Role.employee =>
      allUsers.filter fun user => user.id == currentUser.id

/-- `reduce((sum, expense) => sum + expense.amount, 0)` over a list of
client expenses. -/
def sumAmounts (es : List CExpense) : ℚ :=
  es.foldl (fun sum expense => sum + expense.amount) 0

/-- Result record of `ExpenseService.getDashboardStats`. -/
structure DashboardStats where
  totalExpenses : Nat
  totalAmount : ℚ
  pendingExpenses : Nat
  approvedExpenses : Nat
  rejectedExpenses : Nat
  draftExpenses : Nat
  approvedAmount : ℚ
  recentExpenses : List CExpense
deriving DecidableEq

/-- `ExpenseService.getDashboardStats` from `src/lib/expenseService.ts`. -/
def getDashboardStats (currentUser : CUser) (expenses : List CExpense) : DashboardStats :=
  let userExpenses := getExpensesByRole currentUser expenses
  { totalExpenses := userExpenses.length
    totalAmount := sumAmounts userExpenses
    pendingExpenses := (userExpenses.filter fun e => e.status == CStatus.pending).length
    approvedExpenses := (userExpenses.filter fun e => e.status == CStatus.approved).length
    rejectedExpenses := (userExpenses.filter fun e => e.status == CStatus.rejected).length
    draftExpenses := (userExpenses.filter fun e => e.status == CStatus.draft).length
    approvedAmount := sumAmounts (userExpenses.filter fun e => e.status == CStatus.approved)
    recentExpenses := userExpenses.take 5 }

/-- Permission record from `roleUtils.ts`. -/
structure RolePermissions where
  canViewTeamMembers : Bool
  canManageUsers : Bool
  canApproveExpenses : Bool
  canViewAllExpenses : Bool
  canViewReports : Bool
  canManagePasswordResets : Bool
  canViewDashboard : Bool
  canCreateExpenses : Bool
  canEditOwnExpenses : Bool
deriving DecidableEq

/-- `getRolePermissions` from `roleUtils.ts` (the `default` branch of the
source switch is unreachable for a value of the `UserRole` union). -/
def getRolePermissions : Role → RolePermissions
  | Role.admin =>
      { canViewTeamMembers := true
        canManageUsers := true
        canApproveExpenses := true
        canViewAllExpenses := true
        canViewReports := true
        canManagePasswordResets := true
        canViewDashboard := true
        canCreateExpenses := true
        canEditOwnExpenses := true }
  | Role.manager =>
      { canViewTeamMembers := true
        canManageUsers := false
        canApproveExpenses := true
        canViewAllExpenses := true
        canViewReports := true
        canManagePasswordResets := false
        canViewDashboard := true
        canCreateExpenses := true
        canEditOwnExpenses := true }
  | Role.employee =>
      { canViewTeamMembers := false
        canManageUsers := false
        canApproveExpenses := false
        canViewAllExpenses := false
        canViewReports := false
        canManagePasswordResets := false
        canViewDashboard := true
        canCreateExpenses := true
        canEditOwnExpenses := true }

/-- `ROLE_LEVELS` from `roleUtils.ts`. -/
def ROLE_LEVELS : Role → Nat
  | Role.employee => 1
  | Role.manager => 2
  | Role.admin => 3

/-- `hasRoleLevel` from `roleUtils.ts`: `userLevel >= requiredLevel`. -/
def hasRoleLevel (userRole requiredRole : Role) : Bool :=
  decide (ROLE_LEVELS requiredRole ≤ ROLE_LEVELS userRole)

/-- Pointwise implication of permission records: every permission granted by
`p` is also granted by `q`. Used to state the monotonicity claim. -/
def permissionsLe (p q : RolePermissions) : Bool :=
  (!p.canViewTeamMembers || q.canViewTeamMembers) &&
  (!p.canManageUsers || q.canManageUsers) &&
  (!p.canApproveExpenses || q.canApproveExpenses) &&
  (!p.canViewAllExpenses || q.canViewAllExpenses) &&
  (!p.canViewReports || q.canViewReports) &&
  (!p.canManagePasswordResets || q.canManagePasswordResets) &&
  (!p.canViewDashboard || q.canViewDashboard) &&
  (!p.canCreateExpenses || q.canCreateExpenses) &&
  (!p.canEditOwnExpenses || q.canEditOwnExpenses)

/-- Server-side authenticated user (`req.user`, a Mongo `User` document). -/
structure SUser where
  _id : String
  role : Role
  department : String
deriving DecidableEq

/-- Server-side expense document. Field names follow the route file
`server/routes/expenses.js` and the `user_id`-style model; `reviewed_by`,
`reviewed_at` and `submitted_at` correspond to the model's reviewer /
timestamp fields (`reviewedBy` / `reviewedAt` / `submittedAt` in
`server/models/Expense.js`), all defaulting to null. -/
structure SExpense where
  _id : String
  title : String
  description : String
  amount : ℚ
  category : String
  status : SStatus
  user_id : String
  user_department : String
  receipt_url : String
  reviewed_by : Option String
  reviewed_at : Option Nat
  submitted_at : Option Nat
deriving DecidableEq

/-- The Mongo filter object produced by `buildRoleScope`. -/
inductive Scope
  | all
  | byDepartment (department : String)
  | byOwner (user_id : String)
deriving DecidableEq

/-- `buildRoleScope` from `server/routes/expenses.js`: admin `{}`, manager
`{ user_department: user.department }`, employee `{ user_id: user._id }`. -/
def buildRoleScope (user : SUser) : Scope :=
  match user.role with
  | Role.admin => Scope.all
  | Role.manager => Scope.byDepartment user.department
  | Role.employee => Scope.byOwner user._id

/-- Whether an expense document matches a Mongo scope filter. -/
def matchesScope : Scope → SExpense → Bool
  | Scope.all, _ => true
  | Scope.byDepartment d, e => e.user_department == d
  | Scope.byOwner i, e => e.user_id == i

/-- The role-scoped expense set a request sees (`Expense.find(scope)` /
`$match: scope`). -/
def scopedExpenses (user : SUser) (allExpenses : List SExpense) : List SExpense :=
  allExpenses.filter fun e => matchesScope (buildRoleScope user) e

/-- `STATUS_ALLOWED` from `server/routes/expenses.js`
(`['draft','pending','approved','rejected','paid']` — note `'submitted'` is
not in it). -/
def STATUS_ALLOWED (s : SStatus) : Bool :=
  s == SStatus.draft || s == SStatus.pending || s == SStatus.approved ||
  s == SStatus.rejected || s == SStatus.paid

/-- Whitespace test for the JS `String.prototype.trim` model. -/
def isJsWhitespace (c : Char) : Bool :=
  c == ' ' || c == '\t' || c == '\n' || c == '\r'

/-- Model of JS `String.prototype.trim`: strip leading and trailing
whitespace. -/
def jsTrim (s : String) : String :=
  String.mk (((s.data.dropWhile isJsWhitespace).reverse.dropWhile
    isJsWhitespace).reverse)

/-- `isNonEmptyString` from `server/routes/expenses.js`. -/
def isNonEmptyString (v : String) : Bool :=
  decide (0 < (jsTrim v).length)

/-- `requireRole` middleware from `server/middleware/auth.js`: the request
passes iff the user's role is in the allowed list. -/
def requireRole (roles : List Role) (user : SUser) : Bool :=
  roles.contains user.role

/-- `expenseSchema.pre('save')` from `server/models/Expense.js` lines
119-130: when the status field was modified, set the submitted timestamp if
the (new) status is `'submitted'` and it is unset, and set the reviewed
timestamp if the status is `'approved'` or `'rejected'` and it is unset.
It never touches the reviewer reference. -/
def preSaveStatusHook (statusModified : Bool) (now : Nat) (e : SExpense) : SExpense :=
  if statusModified then
    let e1 :=
      if e.status == SStatus.submitted && e.submitted_at.isNone then
        { e with submitted_at := some now }
      else e
    if (e1.status == SStatus.approved || e1.status == SStatus.rejected)
        && e1.reviewed_at.isNone then
      { e1 with reviewed_at := some now }
    else e1
  else e

/-- HTTP-level failure outcomes of the route handlers. -/
inductive ApiError
  | badRequest
  | accessDenied
  | invalidState
  | notFound
deriving DecidableEq

/-- Request body of `POST /api/expenses`. The route destructures only
`title`, `description`, `amount`, `category`; a `status` field in the body
is ignored ("Always start as draft; users submit later"). -/
structure CreateBody where
  title : String
  description : Option String
  amount : ℚ
  category : String
  status : Option SStatus
deriving DecidableEq

/-- `createValidators` from `server/routes/expenses.js`: title at least 3
characters after trim, amount strictly positive, category non-empty,
description at most 1000 characters. -/
def createValidatorsOk (b : CreateBody) : Bool :=
  decide (3 ≤ (jsTrim b.title).length) &&
  decide (0 < b.amount) &&
  isNonEmptyString b.category &&
  b.description.all fun d => decide (d.length ≤ 1000)

/-- Upload directory constant from `server/routes/expenses.js`. -/
def RECEIPT_DIR : String := "uploads/receipts"

/-- The `POST /api/expenses` handler from `server/routes/expenses.js`:
validator failure is a 400; otherwise a record is created with
`status: 'draft'`, `user_id: req.user._id` and
`user_department: req.user.department || 'general'`. `file` is the stored
filename of an optional receipt upload, `newId` the id Mongo assigns. -/
def createExpenseRoute (actor : SUser) (b : CreateBody) (file : Option String)
    (newId : String) : Except ApiError SExpense :=
  if !(createValidatorsOk b) then Except.error ApiError.badRequest
  else
    Except.ok
      { _id := newId
        title := b.title
        description := b.description.getD ""
        amount := b.amount
        category := b.category
        status := SStatus.draft
        user_id := actor._id
        user_department :=
          if actor.department = "" then "general" else actor.department
        receipt_url :=
          match file with
          | some f => "/" ++ RECEIPT_DIR ++ "/" ++ f
          | none => ""
        reviewed_by := none
        reviewed_at := none
        submitted_at := none }

/-- Request body of `PUT /api/expenses/:id` (every field optional). -/
structure UpdateBody where
  title : Option String
  description : Option String
  amount : Option ℚ
  category : Option String
  status : Option SStatus
deriving DecidableEq

/-- `updateValidators` from `server/routes/expenses.js`; a supplied status
must be in `STATUS_ALLOWED`. -/
def updateValidatorsOk (b : UpdateBody) : Bool :=
  (b.title.all fun t => decide (3 ≤ (jsTrim t).length)) &&
  (b.amount.all fun a => decide (0 < a)) &&
  (b.category.all isNonEmptyString) &&
  (b.description.all fun d => decide (d.length ≤ 1000)) &&
  (b.status.all STATUS_ALLOWED)

/-- The `PUT /api/expenses/:id` handler: only the owner may update and only
while the expense is a draft; every supplied field, including `status`, is
then written via `findByIdAndUpdate` (which does not run the pre-save
hook). `file` is an optional replacement receipt. -/
def updateExpenseRoute (actor : SUser) (e : SExpense) (b : UpdateBody)
    (file : Option String) : Except ApiError SExpense :=
  if !(updateValidatorsOk b) then Except.error ApiError.badRequest
  else if !(e.user_id == actor._id && e.status == SStatus.draft) then
    Except.error ApiError.accessDenied
  else
    Except.ok
      { e with
        title := b.title.getD e.title
        description := b.description.getD e.description
        amount := b.amount.getD e.amount
        category := b.category.getD e.category
        status := b.status.getD e.status
        receipt_url :=
          match file with
          | some f => "/" ++ RECEIPT_DIR ++ "/" ++ f
          | none => e.receipt_url }

/-- The `PATCH /api/expenses/:id/submit` handler: owner only, draft only;
sets status to `'pending'` and saves (running the pre-save hook). The
route's own `submitted_at` assignment is commented out in the source. -/
def submitExpenseRoute (actor : SUser) (e : SExpense) (now : Nat) :
    Except ApiError SExpense :=
  if !(e.user_id == actor._id) then Except.error ApiError.accessDenied
  else if !(e.status == SStatus.draft) then Except.error ApiError.invalidState
  else Except.ok (preSaveStatusHook true now { e with status := SStatus.pending })

/-- Review action, validated by the route to be `'approve'` or `'reject'`. -/
inductive ReviewAction
  | approve
  | reject
deriving DecidableEq

/-- The `PATCH /api/expenses/:id/review` handler: gated by
`requireRole(['manager','admin'])`, then requires status `'pending'`, then a
manager must match the expense's department; sets status to `'approved'` or
`'rejected'` and saves (running the pre-save hook). The route's
`reviewed_by` / `reviewed_at` assignments are commented out in the source. -/
def reviewExpenseRoute (actor : SUser) (action : ReviewAction) (e : SExpense)
    (now : Nat) : Except ApiError SExpense :=
  if !(requireRole [Role.manager, Role.admin] actor) then
    Except.error ApiError.accessDenied
  else if !(e.status == SStatus.pending) then Except.error ApiError.invalidState
  else if actor.role == Role.manager && !(e.user_department == actor.department) then
    Except.error ApiError.accessDenied
  else
    let newStatus :=
      match action with
      | ReviewAction.approve => SStatus.approved
      | ReviewAction.reject => SStatus.rejected
    Except.ok (preSaveStatusHook true now { e with status := newStatus })

/-- The `DELETE /api/expenses/:id` handler: allowed iff the actor owns the
expense and it is a draft, or the actor is an admin. On success the record
is removed and `removeFileIfExists` is called exactly when `receipt_url` is
non-empty; the returned Bool records whether the receipt file was removed. -/
def deleteExpenseRoute (actor : SUser) (e : SExpense) : Except ApiError Bool :=
  if (e.user_id == actor._id && e.status == SStatus.draft)
      || actor.role == Role.admin then
    Except.ok (!(e.receipt_url == ""))
  else Except.error ApiError.accessDenied

/-- Request body of the unmounted controller's create
(`server/controllers/expenseController.js`): everything, including
`status`, `user_id` and `user_department`, is read from the body. -/
structure ControllerCreateBody where
  title : String
  description : String
  amount : ℚ
  category : String
  status : Option SStatus
  receipt_url : String
  user_id : String
  user_department : String
deriving DecidableEq

/-- `createExpense` from `server/controllers/expenseController.js`:
`status: status || "pending"`, owner and department taken from the body. -/
def createExpense (b : ControllerCreateBody) (newId : String) : SExpense :=
  { _id := newId
    title := b.title
    description := b.description
    amount := b.amount
    category := b.category
    status := b.status.getD SStatus.pending
    user_id := b.user_id
    user_department := b.user_department
    receipt_url := b.receipt_url
    reviewed_by := none
    reviewed_at := none
    submitted_at := none }

/-- `updateExpense` from `server/controllers/expenseController.js`:
`findByIdAndUpdate(id, req.body)` with no ownership or state guard. -/
def updateExpense (e : SExpense) (b : UpdateBody) : SExpense :=
  { e with
    title := b.title.getD e.title
    description := b.description.getD e.description
    amount := b.amount.getD e.amount
    category := b.category.getD e.category
    status := b.status.getD e.status }

/-- One `$group` row of the `GET /api/expenses/stats/summary` status
aggregation: `_id: '$status'`, a count and an amount sum. -/
structure StatusStat where
  status : SStatus
  count : Nat
  totalAmount : ℚ
deriving DecidableEq

/-- Sum of `amount` over server expense documents (`$sum: '$amount'`). -/
def sumSAmounts (es : List SExpense) : ℚ :=
  (es.map fun e => e.amount).sum

/-- The `$group: { _id: '$status', count: {$sum: 1},
totalAmount: {$sum: '$amount'} }` stage: one row per distinct status value
occurring in the set. -/
def statusStats (es : List SExpense) : List StatusStat :=
  ((es.map fun e => e.status).dedup).map fun s =>
    let grp := es.filter fun e => e.status == s
    { status := s, count := grp.length, totalAmount := sumSAmounts grp }

/-- The flat totals object built by the summary route's `reduce`. -/
structure Totals where
  totalExpenses : Nat
  totalAmount : ℚ
  pendingExpenses : Nat
  approvedExpenses : Nat
  approvedAmount : ℚ
deriving DecidableEq

/-- The reducer body of the summary route's `statusStats.reduce`. -/
def totalsStep (acc : Totals) (r : StatusStat) : Totals :=
  { acc with
    totalExpenses := acc.totalExpenses + r.count
    totalAmount := acc.totalAmount + r.totalAmount
    pendingExpenses :=
      acc.pendingExpenses + (if r.status == SStatus.pending then r.count else 0)
    approvedExpenses :=
      acc.approvedExpenses + (if r.status == SStatus.approved then r.count else 0)
    approvedAmount :=
      acc.approvedAmount +
        (if r.status == SStatus.approved then r.totalAmount else 0) }

/-- `statusStats.reduce(..., {totalExpenses: 0, ...})` from the summary
route. -/
def totalsOf (stats : List StatusStat) : Totals :=
  stats.foldl totalsStep
    { totalExpenses := 0, totalAmount := 0, pendingExpenses := 0,
      approvedExpenses := 0, approvedAmount := 0 }

/-- The `GET /api/expenses/stats/summary` handler: role-scopes the expense
set, groups it by status, and folds the groups into flat totals. -/
def statsSummary (user : SUser) (allExpenses : List SExpense) :
    Totals × List StatusStat :=
  let st := statusStats (scopedExpenses user allExpenses)
  (totalsOf st, st)

/-! Concrete fixtures used by witnesses and counterexamples. -/

/-- A manager in the Sales department. -/
def cexManager : CUser :=
  { id := "m1", email := "m@corp", name := "Mgr", role := Role.manager,
    department := "Sales" }

/-- An expense owned by `cexManager` but filed under a different
department. -/
def cexOwnOtherDept : CExpense :=
  { id := "x2", user_id := "m1", title := "Taxi", amount := 30,
    category := "Travel", status := CStatus.pending, user_department := "IT" }

/-- A server-side manager in the Sales department. -/
def wSManager : SUser := { _id := "m2", role := Role.manager, department := "Sales" }

/-- A server-side Sales expense. -/
def wSDeptExpense : SExpense :=
  { _id := "e9", title := "Lunch", description := "", amount := 45,
    category := "Meals", status := SStatus.pending, user_id := "u1",
    user_department := "Sales", receipt_url := "", reviewed_by := none,
    reviewed_at := none, submitted_at := none }

/-- A client-side employee. -/
def wEmployee : CUser :=
  { id := "u1", email := "e@corp", name := "Emp", role := Role.employee,
    department := "Sales" }

/-- An expense owned by `wEmployee`. -/
def wOwnExpense : CExpense :=
  { id := "x1", user_id := "u1", title := "Lunch", amount := 45,
    category := "Meals", status := CStatus.draft, user_department := "Sales" }

/-- A server-side employee. -/
def wSEmployee : SUser := { _id := "u1", role := Role.employee, department := "Sales" }

/-- A second expense owned by `cexManager`, in yet another department, for
the C9 witness. -/
def w9OwnExpense : CExpense :=
  { id := "x3", user_id := "m1", title := "Stand", amount := 60,
    category := "Events", status := CStatus.approved,
    user_department := "Marketing" }

/-- A creating user with a department. -/
def w3User : SUser := { _id := "u7", role := Role.employee, department := "Sales" }

/-- A valid create body that also smuggles in a status value. -/
def w3Body : CreateBody :=
  { title := "Team lunch", description := some "desc", amount := 45,
    category := "Meals", status := some SStatus.approved }

/-- The record `createExpenseRoute` produces for `w3User` / `w3Body`. -/
def w3Created : SExpense :=
  { _id := "e1", title := "Team lunch", description := "desc", amount := 45,
    category := "Meals", status := SStatus.draft, user_id := "u7",
    user_department := "Sales", receipt_url := "", reviewed_by := none,
    reviewed_at := none, submitted_at := none }

/-- A creating user whose department is empty. -/
def c3NoDeptUser : SUser := { _id := "u8", role := Role.employee, department := "" }

/-- A valid create body with no status field. -/
def c3Body : CreateBody :=
  { title := "Team lunch", description := none, amount := 45,
    category := "Meals", status := none }

/-- The record `createExpenseRoute` produces for `c3NoDeptUser` / `c3Body`. -/
def c3Created : SExpense :=
  { _id := "e2", title := "Team lunch", description := "", amount := 45,
    category := "Meals", status := SStatus.draft, user_id := "u8",
    user_department := "general", receipt_url := "", reviewed_by := none,
    reviewed_at := none, submitted_at := none }

/-- An admin reviewer. -/
def w4Admin : SUser := { _id := "a1", role := Role.admin, department := "HQ" }

/-- A pending expense awaiting review. -/
def w4Pending : SExpense :=
  { _id := "e4", title := "Flight", description := "", amount := 350,
    category := "Travel", status := SStatus.pending, user_id := "u1",
    user_department := "Sales", receipt_url := "", reviewed_by := none,
    reviewed_at := none, submitted_at := none }

/-- What the review route produces from `w4Pending` at time 42. -/
def w4Approved : SExpense :=
  { _id := "e4", title := "Flight", description := "", amount := 350,
    category := "Travel", status := SStatus.approved, user_id := "u1",
    user_department := "Sales", receipt_url := "", reviewed_by := none,
    reviewed_at := some 42, submitted_at := none }

/-- The owner of `w5Draft`. -/
def w5Owner : SUser := { _id := "u1", role := Role.employee, department := "Sales" }

/-- A draft expense owned by `w5Owner`. -/
def w5Draft : SExpense :=
  { _id := "e5", title := "Hotel", description := "", amount := 85,
    category := "Travel", status := SStatus.draft, user_id := "u1",
    user_department := "Sales", receipt_url := "", reviewed_by := none,
    reviewed_at := none, submitted_at := none }

/-- What the submit route produces from `w5Draft`. -/
def w5PendingRes : SExpense :=
  { _id := "e5", title := "Hotel", description := "", amount := 85,
    category := "Travel", status := SStatus.pending, user_id := "u1",
    user_department := "Sales", receipt_url := "", reviewed_by := none,
    reviewed_at := none, submitted_at := none }

/-- An employee owner, for the self-approval bug input. -/
def c6Owner : SUser := { _id := "u2", role := Role.employee, department := "Sales" }

/-- A draft expense owned by `c6Owner`. -/
def c6Draft : SExpense :=
  { _id := "e6", title := "Laptop", description := "", amount := 900,
    category := "Equipment", status := SStatus.draft, user_id := "u2",
    user_department := "Sales", receipt_url := "", reviewed_by := none,
    reviewed_at := none, submitted_at := none }

/-- An update body that only sets `status: 'approved'`. -/
def c6Body : UpdateBody :=
  { title := none, description := none, amount := none, category := none,
    status := some SStatus.approved }

/-- The result of the self-approving edit of `c6Draft`. -/
def c6Result : SExpense :=
  { _id := "e6", title := "Laptop", description := "", amount := 900,
    category := "Equipment", status := SStatus.approved, user_id := "u2",
    user_department := "Sales", receipt_url := "", reviewed_by := none,
    reviewed_at := none, submitted_at := none }

/-! Theorems. -/

/-- C1 counterexample: the client-side filter returns, for a manager, an
expense the manager owns even though its `user_department` differs from the
manager's department — so the filter does not return exactly the
department-matching expenses, and ownership is special-cased. -/
theorem manager_scope_ownership_counterexample :
    cexManager.role = Role.manager ∧
    getExpensesByRole cexManager [cexOwnOtherDept] = [cexOwnOtherDept] ∧
    cexOwnOtherDept.user_department ≠ cexManager.department := by
  refine ⟨rfl, rfl, ?_⟩
  decide

/-- C1 (amended): for a manager, the server-side scope (`buildRoleScope`)
matches exactly the expenses whose `user_department` equals the manager's
department, while the client-side filter (`getExpensesByRole`) additionally
includes the manager's own expenses regardless of department. -/
theorem manager_scope_characterization (m : CUser) (es : List CExpense)
    (e : CExpense) (su : SUser) (se : SExpense)
    (hm : m.role = Role.manager) (hsu : su.role = Role.manager) :
    (e ∈ getExpensesByRole m es ↔
      e ∈ es ∧ (e.user_department = m.department ∨ e.user_id = m.id)) ∧
    (matchesScope (buildRoleScope su) se = true ↔
      se.user_department = su.department) := by
  constructor
  · simp [getExpensesByRole, hm, List.mem_filter]
  · simp [buildRoleScope, hsu, matchesScope]

/-- C1 witness: the amended characterization applied at a concrete manager,
own-expense-in-another-department, and a department-matching server case. -/
theorem manager_scope_characterization_witness :
    cexOwnOtherDept ∈ getExpensesByRole cexManager [cexOwnOtherDept] ∧
    matchesScope (buildRoleScope wSManager) wSDeptExpense = true := by
  have h := manager_scope_characterization cexManager [cexOwnOtherDept]
    cexOwnOtherDept wSManager wSDeptExpense rfl rfl
  exact ⟨h.1.mpr ⟨List.mem_singleton.mpr rfl, Or.inr rfl⟩, h.2.mpr rfl⟩

/-- C2: for an employee, both the client-side filter and the server-side
scope return exactly the expenses the employee owns. -/
theorem employee_scope_exact (u : CUser) (es : List CExpense) (e : CExpense)
    (su : SUser) (se : SExpense)
    (hu : u.role = Role.employee) (hsu : su.role = Role.employee) :
    (e ∈ getExpensesByRole u es ↔ e ∈ es ∧ e.user_id = u.id) ∧
    (matchesScope (buildRoleScope su) se = true ↔ se.user_id = su._id) := by
  constructor
  · simp [getExpensesByRole, hu, List.mem_filter]
  · simp [buildRoleScope, hsu, matchesScope]

/-- C2 witness: the characterization applied at a concrete employee and
their own expense. -/
theorem employee_scope_exact_witness :
    wOwnExpense ∈ getExpensesByRole wEmployee [wOwnExpense] ∧
    matchesScope (buildRoleScope wSEmployee) wSDeptExpense = true := by
  have h := employee_scope_exact wEmployee [wOwnExpense] wOwnExpense
    wSEmployee wSDeptExpense rfl rfl
  exact ⟨h.1.mpr ⟨List.mem_singleton.mpr rfl, rfl⟩, h.2.mpr rfl⟩

/-- C9: the client-side role filter for a manager always includes every
expense owned by the manager (no matter its department), and the
client-side team-member filter always includes the manager's own user
record when it is in the input list. -/
theorem manager_includes_own (m : CUser) (es : List CExpense) (e : CExpense)
    (us : List CUser) (u : CUser)
    (hm : m.role = Role.manager) (he : e ∈ es) (hid : e.user_id = m.id)
    (hu : u ∈ us) (huid : u.id = m.id) :
    e ∈ getExpensesByRole m es ∧ u ∈ getTeamMembersByRole m us := by
  constructor
  · simp only [getExpensesByRole, hm, List.mem_filter]
    exact ⟨he, by simp [hid]⟩
  · simp only [getTeamMembersByRole, hm, List.mem_filter]
    exact ⟨hu, by simp [huid]⟩

/-- C9 witness: a manager's own expense from a different department is kept
by the filter, and the manager's own user record is kept by the team
filter. -/
theorem manager_includes_own_witness :
    w9OwnExpense ∈ getExpensesByRole cexManager [w9OwnExpense] ∧
    cexManager ∈ getTeamMembersByRole cexManager [cexManager] :=
  manager_includes_own cexManager [w9OwnExpense] w9OwnExpense
    [cexManager] cexManager rfl (List.mem_singleton.mpr rfl) rfl
    (List.mem_singleton.mpr rfl) rfl

/-- C10: role permissions are monotone along the role hierarchy measured by
`hasRoleLevel` (every permission of a lower role is granted to each higher
role), `hasRoleLevel` is reflexive, and admin satisfies every required
role. -/
theorem role_permissions_monotone :
    (∀ r₁ r₂ : Role, hasRoleLevel r₂ r₁ = true →
      permissionsLe (getRolePermissions r₁) (getRolePermissions r₂) = true) ∧
    (∀ r : Role, hasRoleLevel r r = true) ∧
    (∀ r : Role, hasRoleLevel Role.admin r = true) := by
  decide

/-- C10 witness: the monotonicity theorem applied at employee ≤ manager and
admin vs employee. -/
theorem role_permissions_monotone_witness :
    permissionsLe (getRolePermissions Role.employee)
      (getRolePermissions Role.manager) = true ∧
    hasRoleLevel Role.admin Role.employee = true :=
  ⟨role_permissions_monotone.1 Role.employee Role.manager (by decide),
   role_permissions_monotone.2.2 Role.employee⟩

/-- C3 counterexample: a requester whose department is empty gets a record
whose `user_department` is `'general'`, not the requester's department
(the route writes `req.user.department || 'general'`). -/
theorem create_department_fallback_counterexample :
    createExpenseRoute c3NoDeptUser c3Body none "e2" = Except.ok c3Created ∧
    c3Created.user_department ≠ c3NoDeptUser.department ∧
    c3Created.user_department = "general" := by
  refine ⟨?_, by decide, rfl⟩
  rfl

/-- C3 (amended): every record the create route produces has status draft
(any status in the request body is ignored), `user_id` equal to the
requesting user's id, and `user_department` equal to the requester's
department when that is non-empty, and `'general'` otherwise. -/
theorem create_forces_draft_and_owner (actor : SUser) (b : CreateBody)
    (file : Option String) (newId : String) (e : SExpense)
    (h : createExpenseRoute actor b file newId = Except.ok e) :
    e.status = SStatus.draft ∧ e.user_id = actor._id ∧
    e.user_department =
      (if actor.department = "" then "general" else actor.department) := by
  by_cases hv : createValidatorsOk b = true
  · simp only [createExpenseRoute, hv, Bool.not_true, Bool.false_eq_true,
      if_false, Except.ok.injEq] at h
    subst h
    exact ⟨rfl, rfl, rfl⟩
  · simp [createExpenseRoute, hv] at h

/-- C3 witness: the amended claim applied to a concrete create request that
supplies `status: 'approved'` in the body. -/
theorem create_forces_draft_and_owner_witness :
    w3Created.status = SStatus.draft ∧ w3Created.user_id = w3User._id ∧
    w3Created.user_department =
      (if w3User.department = "" then "general" else w3User.department) :=
  create_forces_draft_and_owner w3User w3Body none "e1" w3Created rfl

/-- C5 counterexample: a successful submit at time 7 leaves `submitted_at`
unchanged at null — the route's own assignment is commented out and the
model hook only fires for status `'submitted'`, which the route never
assigns. -/
theorem submit_submitted_at_counterexample :
    submitExpenseRoute w5Owner w5Draft 7 = Except.ok w5PendingRes ∧
    w5PendingRes.submitted_at = none ∧
    w5PendingRes.submitted_at ≠ some 7 := by
  refine ⟨?_, rfl, by decide⟩
  rfl

/-- C5 (amended): submit succeeds iff the actor owns the expense and it is
a draft; on success the result is exactly the input with status `'pending'`
(in particular `submitted_at` is unchanged); an owner submitting a
non-draft expense gets a state error. -/
theorem submit_characterization (actor : SUser) (e : SExpense) (now : Nat) :
    ((submitExpenseRoute actor e now).isOk = true ↔
      (e.user_id = actor._id ∧ e.status = SStatus.draft)) ∧
    (∀ eo, submitExpenseRoute actor e now = Except.ok eo →
      eo = { e with status := SStatus.pending }) ∧
    (e.user_id = actor._id → e.status ≠ SStatus.draft →
      submitExpenseRoute actor e now = Except.error ApiError.invalidState) := by
  refine ⟨?_, ?_, ?_⟩
  · by_cases ho : e.user_id = actor._id
    · by_cases hd : e.status = SStatus.draft
      · simp [submitExpenseRoute, ho, hd, Except.isOk, Except.toBool]
      · simp [submitExpenseRoute, ho, hd, Except.isOk, Except.toBool]
    · simp [submitExpenseRoute, ho, Except.isOk, Except.toBool]
  · intro eo h
    by_cases ho : e.user_id = actor._id
    · by_cases hd : e.status = SStatus.draft
      · simp only [submitExpenseRoute, ho, hd, beq_self_eq_true,
          Bool.not_true, Bool.false_eq_true, if_false, Except.ok.injEq] at h
        subst h
        simp [preSaveStatusHook, ho]
      · simp [submitExpenseRoute, ho, hd] at h
    · simp [submitExpenseRoute, ho] at h
  · intro ho hd
    simp [submitExpenseRoute, ho, hd]

/-- C5 witness: the characterization applied at a concrete owner and draft,
and at the resulting pending expense (which can no longer be submitted). -/
theorem submit_characterization_witness :
    (submitExpenseRoute w5Owner w5Draft 7).isOk = true ∧
    w5PendingRes = { w5Draft with status := SStatus.pending } ∧
    submitExpenseRoute w5Owner w5PendingRes 7 =
      Except.error ApiError.invalidState :=
  ⟨(submit_characterization w5Owner w5Draft 7).1.mpr ⟨rfl, rfl⟩,
   (submit_characterization w5Owner w5Draft 7).2.1 w5PendingRes rfl,
   (submit_characterization w5Owner w5PendingRes 7).2.2 rfl (by decide)⟩

/-- C4 counterexample: a successful admin approval leaves `reviewed_by`
unchanged at null — the route's reviewer assignment is commented out and
the model hook only sets the reviewed timestamp. -/
theorem review_reviewer_unset_counterexample :
    reviewExpenseRoute w4Admin ReviewAction.approve w4Pending 42 =
      Except.ok w4Approved ∧
    w4Approved.reviewed_by = none ∧
    w4Approved.reviewed_by ≠ some w4Admin._id := by
  refine ⟨?_, rfl, by decide⟩
  rfl

/-- C4 (amended): review succeeds iff the expense is pending and the actor
is an admin or a manager of the expense's department; a successful approve
sets status to approved and (for a not-yet-reviewed expense) `reviewed_at`
to the review time, while `reviewed_by` is left unchanged; all other
attempts fail with an authorization or state error. -/
theorem review_characterization (actor : SUser) (action : ReviewAction)
    (e : SExpense) (now : Nat) (hre : e.reviewed_at = none) :
    ((reviewExpenseRoute actor action e now).isOk = true ↔
      (e.status = SStatus.pending ∧
        (actor.role = Role.admin ∨
          (actor.role = Role.manager ∧ e.user_department = actor.department)))) ∧
    (∀ eo, action = ReviewAction.approve →
      reviewExpenseRoute actor action e now = Except.ok eo →
      eo.status = SStatus.approved ∧ eo.reviewed_at = some now ∧
      eo.reviewed_by = e.reviewed_by) := by
  constructor
  · cases hr : actor.role with
    | admin =>
      by_cases hs : e.status = SStatus.pending
      · simp [reviewExpenseRoute, requireRole, hr, hs, Except.isOk,
          Except.toBool]
      · simp [reviewExpenseRoute, requireRole, hr, hs, Except.isOk,
          Except.toBool]
    | manager =>
      by_cases hs : e.status = SStatus.pending
      · by_cases hd : e.user_department = actor.department
        · simp [reviewExpenseRoute, requireRole, hr, hs, hd, Except.isOk,
            Except.toBool]
        · simp [reviewExpenseRoute, requireRole, hr, hs, hd, Except.isOk,
            Except.toBool]
      · simp [reviewExpenseRoute, requireRole, hr, hs, Except.isOk,
          Except.toBool]
    | employee =>
      simp [reviewExpenseRoute, requireRole, hr, Except.isOk, Except.toBool]
  · intro eo ha h
    subst ha
    cases hr : actor.role with
    | admin =>
      by_cases hs : e.status = SStatus.pending
      · simp [reviewExpenseRoute, requireRole, hr, hs] at h
        subst h
        simp [preSaveStatusHook, hre]
      · simp [reviewExpenseRoute, requireRole, hr, hs] at h
    | manager =>
      by_cases hs : e.status = SStatus.pending
      · by_cases hd : e.user_department = actor.department
        · simp [reviewExpenseRoute, requireRole, hr, hs, hd] at h
          subst h
          simp [preSaveStatusHook, hre]
        · simp [reviewExpenseRoute, requireRole, hr, hs, hd] at h
      · simp [reviewExpenseRoute, requireRole, hr, hs] at h
    | employee =>
      simp [reviewExpenseRoute, requireRole, hr] at h

/-- C4 witness: the characterization applied to a concrete admin approving
a concrete pending expense at time 42. -/
theorem review_characterization_witness :
    (reviewExpenseRoute w4Admin ReviewAction.approve w4Pending 42).isOk = true ∧
    w4Approved.status = SStatus.approved ∧
    w4Approved.reviewed_at = some 42 ∧
    w4Approved.reviewed_by = w4Pending.reviewed_by :=
  have h := review_characterization w4Admin ReviewAction.approve w4Pending 42 rfl
  ⟨h.1.mpr ⟨rfl, Or.inl rfl⟩,
   (h.2 w4Approved rfl rfl).1,
   (h.2 w4Approved rfl rfl).2.1,
   (h.2 w4Approved rfl rfl).2.2⟩

/-- C6: the edit route lets the owner of a draft expense set its status
directly to `'approved'` — the draft jumps to approved without passing
through pending and without any reviewer involvement, even though the
review route itself rejects the same employee as actor. The route's own
comment claims the draft check enforces the status, but the check only
gates who may edit, not which status value may be written. -/
theorem edit_draft_to_approved_bug :
    c6Owner.role = Role.employee ∧
    c6Draft.status = SStatus.draft ∧
    updateExpenseRoute c6Owner c6Draft c6Body none = Except.ok c6Result ∧
    c6Result.status = SStatus.approved ∧
    reviewExpenseRoute c6Owner ReviewAction.approve w5PendingRes 9 =
      Except.error ApiError.accessDenied := by
  refine ⟨rfl, rfl, ?_, rfl, rfl⟩
  rfl

/-- C7: deletion succeeds iff the actor owns the expense and it is a draft,
or the actor is an admin; on success the receipt file is removed exactly
when a receipt reference is present, and otherwise the request is denied
(leaving the record in place). -/
theorem delete_characterization (actor : SUser) (e : SExpense) :
    ((deleteExpenseRoute actor e).isOk = true ↔
      ((e.user_id = actor._id ∧ e.status = SStatus.draft) ∨
        actor.role = Role.admin)) ∧
    (deleteExpenseRoute actor e = Except.ok (!(e.receipt_url == "")) ∨
      deleteExpenseRoute actor e = Except.error ApiError.accessDenied) := by
  constructor
  · by_cases hc : ((e.user_id == actor._id && e.status == SStatus.draft)
        || actor.role == Role.admin) = true
    · simp only [deleteExpenseRoute, hc, if_true, Except.isOk, Except.toBool]
      simp only [Bool.or_eq_true, Bool.and_eq_true, beq_iff_eq] at hc
      simp [hc]
    · simp only [deleteExpenseRoute, hc, if_false, Except.isOk, Except.toBool]
      simp only [Bool.or_eq_true, Bool.and_eq_true, beq_iff_eq] at hc
      simp [hc]
  · unfold deleteExpenseRoute
    split
    · exact Or.inl rfl
    · exact Or.inr rfl

/-! Helper lemmas for the aggregation claim. -/

theorem filter_sub_filter {α : Type} (p q : α → Bool)
    (h : ∀ a, p a = true → q a = true) :
    ∀ l : List α, (l.filter q).filter p = l.filter p := by
  intro l
  induction l with
  | nil => rfl
  | cons a t ih =>
    cases hq : q a with
    | true =>
      cases hp : p a with
      | true => simp [List.filter_cons, hq, hp, ih]
      | false => simp [List.filter_cons, hq, hp, ih]
    | false =>
      have hp : p a = false := by
        cases hpp : p a with
        | false => rfl
        | true => exact absurd (h a hpp) (by simp [hq])
      simp [List.filter_cons, hq, hp, ih]

theorem sum_map_filter_add {α M : Type} [AddCommMonoid M] (p : α → Bool)
    (m : α → M) :
    ∀ l : List α,
      ((l.filter p).map m).sum + ((l.filter fun a => !(p a)).map m).sum =
        (l.map m).sum := by
  intro l
  induction l with
  | nil => simp
  | cons a t ih =>
    cases hp : p a with
    | true =>
      simp only [List.filter_cons, hp, Bool.not_true, Bool.false_eq_true,
        if_false, if_true, List.map_cons, List.sum_cons]
      rw [add_assoc, ih]
    | false =>
      simp only [List.filter_cons, hp, Bool.not_false, Bool.false_eq_true,
        if_false, if_true, List.map_cons, List.sum_cons]
      rw [add_left_comm, ih]

theorem sum_map_over_keys {α κ M : Type} [DecidableEq κ] [AddCommMonoid M]
    (k : α → κ) (m : α → M) :
    ∀ (ks : List κ) (l : List α), ks.Nodup → (∀ a ∈ l, k a ∈ ks) →
      (ks.map fun s => ((l.filter fun a => k a == s).map m).sum).sum =
        (l.map m).sum := by
  intro ks
  induction ks with
  | nil =>
    intro l _ hmem
    cases l with
    | nil => simp
    | cons a t => exact absurd (hmem a (List.mem_cons_self a t)) (List.not_mem_nil _)
  | cons s ks ih =>
    intro l hnd hmem
    have hs : s ∉ ks := (List.nodup_cons.mp hnd).1
    have hnd' : ks.Nodup := (List.nodup_cons.mp hnd).2
    have hmem' : ∀ a ∈ l.filter (fun a => !(k a == s)), k a ∈ ks := by
      intro a ha
      rw [List.mem_filter] at ha
      have h1 := hmem a ha.1
      have h2 : ¬ (k a = s) := by simpa using ha.2
      rcases List.mem_cons.mp h1 with h | h
      · exact absurd h h2
      · exact h
    have hrw :
        (ks.map fun t => ((l.filter fun a => k a == t).map m).sum) =
        (ks.map fun t =>
          (((l.filter fun a => !(k a == s)).filter fun a => k a == t).map m).sum) := by
      apply List.map_congr_left
      intro t ht
      have hne : t ≠ s := fun hts => hs (hts ▸ ht)
      have himp : ∀ a, (k a == t) = true → (!(k a == s)) = true := by
        intro a hp
        have hkt : k a = t := by simpa using hp
        simp [hkt, hne]
      rw [filter_sub_filter _ _ himp l]
    simp only [List.map_cons, List.sum_cons]
    rw [hrw, ih _ hnd' hmem']
    exact sum_map_filter_add _ m l

theorem sum_map_one {α : Type} (l : List α) :
    (l.map fun _ => (1 : ℕ)).sum = l.length := by
  induction l with
  | nil => rfl
  | cons a t ih => simp [ih]; omega

theorem length_filter_key_partition {α κ : Type} [DecidableEq κ] (k : α → κ)
    (ks : List κ) (l : List α) (h1 : ks.Nodup) (h2 : ∀ a ∈ l, k a ∈ ks) :
    (ks.map fun s => (l.filter fun a => k a == s).length).sum = l.length := by
  have h := sum_map_over_keys k (fun _ => (1 : ℕ)) ks l h1 h2
  simpa [sum_map_one] using h

theorem totalsOf_spec :
    ∀ (stats : List StatusStat) (acc : Totals),
      (stats.foldl totalsStep acc).totalExpenses =
        acc.totalExpenses + (stats.map StatusStat.count).sum ∧
      (stats.foldl totalsStep acc).totalAmount =
        acc.totalAmount + (stats.map StatusStat.totalAmount).sum := by
  intro stats
  induction stats with
  | nil => intro acc; simp
  | cons r t ih =>
    intro acc
    simp only [List.foldl_cons, List.map_cons, List.sum_cons]
    constructor
    · rw [(ih (totalsStep acc r)).1]
      simp only [totalsStep]
      omega
    · rw [(ih (totalsStep acc r)).2]
      simp only [totalsStep]
      ring

theorem four_status_partition :
    ∀ l : List CExpense,
      l.length =
        (l.filter fun e => e.status == CStatus.draft).length +
        (l.filter fun e => e.status == CStatus.pending).length +
        (l.filter fun e => e.status == CStatus.approved).length +
        (l.filter fun e => e.status == CStatus.rejected).length := by
  intro l
  induction l with
  | nil => rfl
  | cons a t ih =>
    cases h : a.status <;> simp [List.filter_cons, h] <;> omega

/-- C8: the summary aggregation's flat totals equal the sums of its
per-status subtotals (both the count and the amount), which in turn equal
the size and amount-sum of the role-scoped set; recomputing the aggregation
on the same set yields an identical output; and the client-side dashboard's
total count is likewise the sum of its four per-status counts. -/
theorem stats_totals_partition (u : SUser) (es : List SExpense)
    (cu : CUser) (ces : List CExpense) :
    (statsSummary u es).1.totalExpenses =
      ((statsSummary u es).2.map StatusStat.count).sum ∧
    (statsSummary u es).1.totalAmount =
      ((statsSummary u es).2.map StatusStat.totalAmount).sum ∧
    (statsSummary u es).1.totalExpenses = (scopedExpenses u es).length ∧
    (statsSummary u es).1.totalAmount = sumSAmounts (scopedExpenses u es) ∧
    statsSummary u es = statsSummary u es ∧
    (getDashboardStats cu ces).totalExpenses =
      (getDashboardStats cu ces).draftExpenses +
      (getDashboardStats cu ces).pendingExpenses +
      (getDashboardStats cu ces).approvedExpenses +
      (getDashboardStats cu ces).rejectedExpenses ∧
    getDashboardStats cu ces = getDashboardStats cu ces := by
  have hnd : ((scopedExpenses u es).map fun e => e.status).dedup.Nodup :=
    List.nodup_dedup _
  have hmem : ∀ e ∈ scopedExpenses u es,
      (fun e : SExpense => e.status) e ∈
        ((scopedExpenses u es).map fun e => e.status).dedup := by
    intro e he
    exact List.mem_dedup.mpr (List.mem_map_of_mem _ he)
  refine ⟨?_, ?_, ?_, ?_, rfl, ?_, rfl⟩
  · simp [statsSummary, totalsOf, (totalsOf_spec _ _).1]
  · simp [statsSummary, totalsOf, (totalsOf_spec _ _).2]
  · have hlen := length_filter_key_partition (fun e : SExpense => e.status)
      _ _ hnd hmem
    simp only [statsSummary, totalsOf, (totalsOf_spec _ _).1]
    simp only [statusStats, List.map_map]
    simpa using hlen
  · have hsum := sum_map_over_keys (fun e : SExpense => e.status)
      (fun e : SExpense => e.amount) _ _ hnd hmem
    simp only [statsSummary, totalsOf, (totalsOf_spec _ _).2]
    simp only [statusStats, List.map_map, sumSAmounts]
    simpa using hsum
  · have hp := four_status_partition (getExpensesByRole cu ces)
    simp only [getDashboardStats]
    omega

end ExpenseTracker
